import Mathlib

/-!
# es-node: the per-peer protocol layer (`ethstorage/p2p/protocol/peer.go`)

A shallow embedding of `peer.go` and the properties of its operations:
the shard predicate `IsShardExist`, the request-size budget `getRequestSize`
(with the float64 conversions of `NewPeer`), and the two fetch operations
`RequestBlobsByRange` / `RequestBlobsByList`, whose calls to the outside
(logger, stream opener, tracker, `SendRPC`, `Close`, context cancellation) are
recorded in an event trace.

Declarations that `peer.go` uses but that live in other files of the package
(`Tracker`, `SendRPC`, `GetProtocolID`, the timing constants, the status byte
`streamError`) are fields of `Env`.
-/

namespace EsNode

/-! ## Basic data -/

/-- The type `common.Address` (20 bytes), held as the number its bytes spell. -/
abbrev Address := Nat

/-- The type `peer.ID`: a Go string, held as its bytes. -/
abbrev PeerID := List Nat

/-- A libp2p protocol identifier. -/
abbrev ProtocolID := String

/-- A non-nil `network.Stream` value, named by a handle. -/
abbrev StreamH := Nat

/-- A non-nil Go `error` value. -/
abbrev GoError := String

/-- The type `network.Direction`. -/
inductive Direction where
  | dirUnknown
  | dirInbound
  | dirOutbound
  deriving DecidableEq, Repr

/-- A `context.Context`, by the way it was derived. -/
inductive Ctx where
  | background
  | withCancel (parent : Ctx)
  | withTimeout (parent : Ctx) (timeout : Nat)
  deriving DecidableEq, Repr

/-! ## float64 values -/

/-- A float64 value: NaN, an infinity, or a finite value held as the rational
number it denotes.  The sign of a zero is not tracked (the zero of the model is
`+0`); `math.Max` and the conversion to `uint64` do not tell the two zeros
apart. -/
inductive F64 where
  | nan
  | inf (neg : Bool)
  | fin (q : ℚ)
  deriving DecidableEq

/-- Go's `math.Max`: `+Inf` wins over everything, then NaN over everything
else, otherwise the larger argument. -/
def mathMax : F64 → F64 → F64
  | .inf false, _ => .inf false
  | _, .inf false => .inf false
  | .nan, _ => .nan
  | _, .nan => .nan
  | .inf true, y => y
  | x, .inf true => x
  | .fin a, .fin b => if a > b then .fin a else .fin b

/-- Go's conversion `uint64(f)` of a float64: the fraction is discarded when
the truncated value fits in 64 bits; otherwise (NaN, infinities, values at or
below `-1` or at or above `2^64`) the result is implementation-dependent and is
read from `implDep`. -/
def toUInt64 (implDep : F64 → Nat) : F64 → Nat
  | .fin q => if -1 < q ∧ q < 2 ^ 64 then ⌊q⌋.toNat else implDep (.fin q) % 2 ^ 64
  | f => implDep f % 2 ^ 64

/-- The number of bits that `n` has beyond 53, counted by halving at most
`fuel` times. -/
def excessBits : Nat → Nat → Nat
  | 0, _ => 0
  | fuel + 1, n => if n < 2 ^ 53 then 0 else excessBits fuel (n / 2) + 1

/-- Go's conversion `float64(n)` of a `uint64`: integers below `2^53` are
exact; larger ones keep their 53 leading bits (a `uint64` has at most 11 more),
rounded to nearest, ties to the even mantissa. -/
def float64OfUInt64 (n : Nat) : Nat :=
  if n < 2 ^ 53 then n
  else
    let e := excessBits 11 n
    let q := n / 2 ^ e
    let r := n % 2 ^ e
    let half := 2 ^ (e - 1)
    if r < half then q * 2 ^ e
    else if half < r then (q + 1) * 2 ^ e
    else if q % 2 = 0 then q * 2 ^ e
    else (q + 1) * 2 ^ e

/-- Round a non-negative rational to the nearest natural number, ties to even. -/
def roundHalfEven (m : ℚ) : Nat :=
  let f := ⌊m⌋.toNat
  let r := m - f
  if r < 1 / 2 then f
  else if 1 / 2 < r then f + 1
  else if f % 2 = 0 then f
  else f + 1

/-- IEEE-754 binary64 rounding (to nearest, ties to even) of an exact result:
53 significant bits, smallest exponent `-1074`, overflow to an infinity. -/
def roundBinary64 (q : ℚ) : F64 :=
  if q = 0 then .fin 0
  else
    let a := |q|
    let e : Int := Int.log 2 a
    let p : Int := max (e - 52) (-1074)
    let v : ℚ := (roundHalfEven (a / (2 : ℚ) ^ p) : ℚ) * (2 : ℚ) ^ p
    if (2 : ℚ) ^ (1024 : Nat) ≤ v then .inf (decide (q < 0))
    else .fin (if q < 0 then -v else v)

/-- The float64 operations that `peer.go` performs besides `math.Max` and the
conversion to `uint64`. -/
structure FloatOps where
  /-- The conversion `float64(n)` of a `uint64`. -/
  ofUInt64 : Nat → F64
  /-- The product `x * y`. -/
  mul : F64 → F64 → F64
  /-- The quotient `x / y`. -/
  div : F64 → F64 → F64

/-- IEEE product. -/
def ieeeMul : F64 → F64 → F64
  | .nan, _ => .nan
  | _, .nan => .nan
  | .inf s, .inf t => .inf (s != t)
  | .inf s, .fin b => if b = 0 then .nan else .inf (s != decide (b < 0))
  | .fin a, .inf t => if a = 0 then .nan else .inf (decide (a < 0) != t)
  | .fin a, .fin b => roundBinary64 (a * b)

/-- IEEE quotient (a zero divisor is `+0`). -/
def ieeeDiv : F64 → F64 → F64
  | .nan, _ => .nan
  | _, .nan => .nan
  | .inf _, .inf _ => .nan
  | .inf s, .fin b => .inf (s != decide (b < 0))
  | .fin _, .inf _ => .fin 0
  | .fin a, .fin b =>
    if b = 0 then (if a = 0 then .nan else .inf (decide (a < 0)))
    else roundBinary64 (a / b)

/-- The float64 arithmetic of the machine. -/
def ieee : FloatOps where
  ofUInt64 n := .fin (float64OfUInt64 n)
  mul := ieeeMul
  div := ieeeDiv

/-! ## The peer -/

/-- The type `newStreamFn`: the injected stream opener.  It returns Go's pair
`(network.Stream, error)`, either of which may be nil. -/
abbrev NewStreamFn := Ctx → PeerID → ProtocolID → Option StreamH × Option GoError

/-- The struct `Peer`, over the tracker type `τ`.  The field `resCancel` is the
cancel function of `resCtx`. -/
structure Peer (τ : Type) where
  id : PeerID
  newStreamFn : NewStreamFn
  chainId : Int
  direction : Direction
  version : Nat
  shards : Address → Option (List Nat)
  minRequestSize : F64
  tracker : τ
  resCtx : Ctx
  /-- The contextual logger: the value of its `"peer"` field. -/
  logger : PeerID

/-- The request packets `GetBlobsByRangePacket` and `GetBlobsByListPacket`. -/
inductive Request where
  | byRange (ID : Nat) (Contract : Address) (ShardId : Nat) (Origin : Nat) (Limit : Nat)
      (Bytes : Nat)
  | byList (ID : Nat) (Contract : Address) (ShardId : Nat) (BlobList : List Nat) (Bytes : Nat)
  deriving DecidableEq

/-- The caller's response buffer: a `*BlobsByRangePacket` or a
`*BlobsByListPacket`, named by its address. -/
inductive RespBuf where
  | byRange (ptr : Nat)
  | byList (ptr : Nat)
  deriving DecidableEq

/-- What `peer.go` takes from the rest of the package and from its libraries. -/
structure Env (τ : Type) where
  /-- The float64 arithmetic. -/
  fl : FloatOps
  /-- The result of `uint64(f)` where Go leaves it implementation-dependent. -/
  implDep : F64 → Nat
  /-- The value of `p2pReadWriteTimeout.Seconds()`. -/
  p2pReadWriteTimeoutSeconds : F64
  rttEstimateFactor : F64
  NewStreamTimeout : Nat
  /-- The status byte `streamError`. -/
  streamError : Nat
  RequestBlobsByRangeProtocolID : String
  RequestBlobsByListProtocolID : String
  GetProtocolID : String → Int → ProtocolID
  /-- The method `peer.ID.String`. -/
  peerIDString : PeerID → String
  NewTracker : String → F64 → τ
  /-- The method `Tracker.Capacity`, a read of the tracker. -/
  Capacity : τ → F64 → F64
  /-- The exchange `SendRPC(stream, req, resp)`; the stream may be nil. -/
  SendRPC : Option StreamH → Request → RespBuf → Nat × Option GoError
  /-- The result of `stream.Close()`. -/
  Close : StreamH → Option GoError

/-- The window `p2pReadWriteTimeout.Seconds()*rttEstimateFactor`. -/
def Env.window {τ : Type} (env : Env τ) : F64 :=
  env.fl.mul env.p2pReadWriteTimeoutSeconds env.rttEstimateFactor

/-- The constructor `NewPeer`.  Building the logger slices `peerId[:8]`, which
panics on an id shorter than 8 bytes: the result is then `none`. -/
def NewPeer {τ : Type} (env : Env τ) (version : Nat) (chainId : Int) (peerId : PeerID)
    (newStream : NewStreamFn) (direction : Direction) (initRequestSize minRequestSize : Nat)
    (shards : Address → Option (List Nat)) : Option (Peer τ) :=
  if 8 ≤ peerId.length then
    some
      { id := peerId
        newStreamFn := newStream
        chainId := chainId
        direction := direction
        version := version
        shards := shards
        minRequestSize := env.fl.ofUInt64 minRequestSize
        tracker := env.NewTracker (env.peerIDString peerId)
          (env.fl.div (env.fl.ofUInt64 initRequestSize) env.window)
        resCtx := .withCancel .background
        logger := peerId.take 8 }
  else none

/-- The method `Peer.IsShardExist`. -/
def IsShardExist {τ : Type} (p : Peer τ) (contract : Address) (shardId : Nat) : Bool :=
  match p.shards contract with
  | some ids => if ids.contains shardId then true else false
  | none => false

/-- The method `Peer.getRequestSize`. -/
def getRequestSize {τ : Type} (env : Env τ) (p : Peer τ) : Nat :=
  toUInt64 env.implDep (mathMax (env.Capacity p.tracker env.window) p.minRequestSize)

/-! ## The fetch operations -/

/-- A value logged as a key's field. -/
inductive LogValue where
  | num (n : Nat)
  | addr (a : Address)
  | err (e : GoError)
  deriving DecidableEq

/-- What a fetch call does to the outside, in the order it does it. -/
inductive Event where
  /-- A `Trace` record written to the logger `logger`. -/
  | logTrace (logger : PeerID) (msg : String) (fields : List (String × LogValue))
  /-- The scope `context.WithTimeout(parent, timeout)` is derived. -/
  | withTimeout (parent : Ctx) (timeout : Nat)
  /-- The stream opener is called. -/
  | newStream (ctx : Ctx) (id : PeerID) (proto : ProtocolID)
  /-- The tracker is read: `Tracker.Capacity(window)`. -/
  | capacity (window : F64)
  /-- The exchange `SendRPC(stream, req, resp)` is performed. -/
  | sendRPC (stream : Option StreamH) (req : Request) (resp : RespBuf)
  /-- The call `stream.Close()`, with the error it returned (which the caller drops). -/
  | close (stream : StreamH) (result : Option GoError)
  /-- The deferred `cancel()` of the scope `ctx`. -/
  | cancel (ctx : Ctx)
  deriving DecidableEq

/-- The result of a fetch call: the returned pair `(byte, error)`, the peer as
the call leaves it, and the trace of the call. -/
structure Outcome (τ : Type) where
  status : Nat
  err : Option GoError
  peer : Peer τ
  trace : List Event

/-- The deferred closure `if stream != nil { stream.Close() }`. -/
def deferredClose {τ : Type} (env : Env τ) : Option StreamH → List Event
  | some s => [.close s (env.Close s)]
  | none => []

/-- The method `Peer.RequestBlobsByRange`. -/
def RequestBlobsByRange {τ : Type} (env : Env τ) (p : Peer τ) (id : Nat) (contract : Address)
    (shardId origin limit : Nat) (blobs : Nat) : Outcome τ :=
  let logged := Event.logTrace p.logger "Fetching KVs"
    [("reqId", .num id), ("contract", .addr contract), ("shardId", .num shardId),
      ("origin", .num origin), ("limit", .num limit)]
  let ctx := Ctx.withTimeout p.resCtx env.NewStreamTimeout
  let proto := env.GetProtocolID env.RequestBlobsByRangeProtocolID p.chainId
  let opened := [logged, .withTimeout p.resCtx env.NewStreamTimeout, .newStream ctx p.id proto]
  match p.newStreamFn ctx p.id proto with
  | (_, some err) =>
    { status := env.streamError, err := some err, peer := p, trace := opened ++ [.cancel ctx] }
  | (stream, none) =>
    let requestSize := getRequestSize env p
    let req := Request.byRange id contract shardId origin limit requestSize
    let res := env.SendRPC stream req (.byRange blobs)
    { status := res.1, err := res.2, peer := p
      trace := opened ++ [.capacity env.window, .sendRPC stream req (.byRange blobs)]
        ++ deferredClose env stream ++ [.cancel ctx] }

/-- The method `Peer.RequestBlobsByList`. -/
def RequestBlobsByList {τ : Type} (env : Env τ) (p : Peer τ) (id : Nat) (contract : Address)
    (shardId : Nat) (kvList : List Nat) (blobs : Nat) : Outcome τ :=
  let logged := Event.logTrace p.logger "Fetching KVs"
    [("reqId", .num id), ("contract", .addr contract), ("shardId", .num shardId),
      ("count", .num kvList.length)]
  let ctx := Ctx.withTimeout p.resCtx env.NewStreamTimeout
  let proto := env.GetProtocolID env.RequestBlobsByListProtocolID p.chainId
  let opened := [logged, .withTimeout p.resCtx env.NewStreamTimeout, .newStream ctx p.id proto]
  match p.newStreamFn ctx p.id proto with
  | (_, some err) =>
    { status := env.streamError, err := some err, peer := p, trace := opened ++ [.cancel ctx] }
  | (stream, none) =>
    let requestSize := getRequestSize env p
    let req := Request.byList id contract shardId kvList requestSize
    let res := env.SendRPC stream req (.byList blobs)
    { status := res.1, err := res.2, peer := p
      trace := opened ++ [.capacity env.window, .sendRPC stream req (.byList blobs)]
        ++ deferredClose env stream ++ [.cancel ctx] }

/-! ## Reading a trace -/

/-- The stream-opener calls of a trace. -/
def opens : List Event → List (Ctx × PeerID × ProtocolID)
  | [] => []
  | .newStream c i q :: es => (c, i, q) :: opens es
  | _ :: es => opens es

/-- The `SendRPC` calls of a trace. -/
def exchanges : List Event → List (Option StreamH × Request × RespBuf)
  | [] => []
  | .sendRPC s r b :: es => (s, r, b) :: exchanges es
  | _ :: es => exchanges es

/-- The streams closed in a trace, one entry per `Close`. -/
def closes : List Event → List StreamH
  | [] => []
  | .close s _ :: es => s :: closes es
  | _ :: es => closes es

/-- The errors that `Close` returned in a trace. -/
def closeErrors : List Event → List GoError
  | [] => []
  | .close _ (some e) :: es => e :: closeErrors es
  | _ :: es => closeErrors es

/-- The tracker reads of a trace. -/
def trackerReads : List Event → List F64
  | [] => []
  | .capacity w :: es => w :: trackerReads es
  | _ :: es => trackerReads es

/-- Whether some log record of the trace carries the error `e` in a field. -/
def errorLogged (e : GoError) : List Event → Bool
  | [] => false
  | .logTrace _ _ fields :: es => fields.any (fun kv => kv.2 == .err e) || errorLogged e es
  | _ :: es => errorLogged e es

/-- The streams that a stream-opener result hands over: the stream of a
successful (`err == nil`) result, if it is not nil. -/
def streamsOpened : Option StreamH × Option GoError → List StreamH
  | (some s, none) => [s]
  | _ => []

/-! ## The tracker of the specification -/

/-- Modelled from the spec: the Throughput Tracker, whose Go source is not in
`peer.go`.  Its state is "a smoothed throughput estimate (bytes per unit time),
initialized from a caller-supplied seed". -/
structure Tracker where
  name : String
  estimate : F64
  deriving DecidableEq

/-- Modelled from the spec: `Initialize(seedThroughput)` "sets initial smoothed
estimate to the seed". -/
def Tracker.new (name : String) (seed : F64) : Tracker :=
  { name := name, estimate := seed }

/-- Modelled from the spec: a budget "floored at zero" (a negative value becomes
zero, NaN and `+Inf` stay). -/
def floorZero : F64 → F64
  | .fin q => if q < 0 then .fin 0 else .fin q
  | .inf true => .fin 0
  | f => f

/-- Modelled from the spec: `Capacity(window)` is "estimate × window, floored at
zero". -/
def Tracker.Capacity (fl : FloatOps) (t : Tracker) (window : F64) : F64 :=
  floorZero (fl.mul t.estimate window)

/-- An environment whose tracker is the tracker of the specification: the
arithmetic `fl`, the window `secs * factor`, and the outcomes `sendRPC` and
`close` of the exchange and of closing a stream.  The remaining constants are
declared outside `peer.go`; the values here are samples. -/
def specEnv (fl : FloatOps) (implDep : F64 → Nat) (secs factor : F64)
    (sendRPC : Option StreamH → Request → RespBuf → Nat × Option GoError)
    (close : StreamH → Option GoError) : Env Tracker where
  fl := fl
  implDep := implDep
  p2pReadWriteTimeoutSeconds := secs
  rttEstimateFactor := factor
  NewStreamTimeout := 10
  streamError := 1
  RequestBlobsByRangeProtocolID := "/ethstorage/range"
  RequestBlobsByListProtocolID := "/ethstorage/list"
  GetProtocolID kind chainId := kind ++ "/" ++ toString chainId
  peerIDString peerId := String.mk (peerId.map Char.ofNat)
  NewTracker := Tracker.new
  Capacity := Tracker.Capacity fl
  SendRPC := sendRPC
  Close := close

/-! ## Sample values -/

/-- A peer id of nine bytes. -/
def samplePeerId : PeerID := [18, 32, 7, 201, 44, 5, 96, 130, 11]

/-- The shard map of the specification's example: contract `0xAA` hosts shards
`1` and `3`. -/
def sampleShards : Address → Option (List Nat) :=
  fun c => if c = 0xAA then some [1, 3] else none

/-- An exchange that succeeds with status `0`. -/
def okExchange : Option StreamH → Request → RespBuf → Nat × Option GoError :=
  fun _ _ _ => (0, none)

/-- An exchange that times out: status `3` and an error. -/
def timeoutExchange : Option StreamH → Request → RespBuf → Nat × Option GoError :=
  fun _ _ _ => (3, some "i/o deadline reached")

/-- A stream opener that hands over stream `7`. -/
def openOk : NewStreamFn := fun _ _ _ => (some 7, none)

/-- A stream opener that fails. -/
def openFail : NewStreamFn := fun _ _ _ => (none, some "dial backoff")

/-- A `Close` that succeeds. -/
def closeOk : StreamH → Option GoError := fun _ => none

/-- A `Close` that fails. -/
def closeFail : StreamH → Option GoError := fun _ => some "stream reset"

/-- A peer with the sample id and shard map, a floor of 4096 bytes and a tracker
whose estimate is 1000 bytes per second. -/
def samplePeer (newStream : NewStreamFn) : Peer Tracker where
  id := samplePeerId
  newStreamFn := newStream
  chainId := 3333
  direction := .dirOutbound
  version := 1
  shards := sampleShards
  minRequestSize := .fin 4096
  tracker := { name := "sample", estimate := .fin 1000 }
  resCtx := .withCancel .background
  logger := samplePeerId.take 8

/-- The sample environment: the float64 arithmetic of the machine and a window
of `5 * 2` seconds. -/
def sampleEnv (sendRPC : Option StreamH → Request → RespBuf → Nat × Option GoError)
    (close : StreamH → Option GoError) : Env Tracker :=
  specEnv ieee (fun _ => 0) (.fin 5) (.fin 2) sendRPC close

/-! ## The scope and the stream-opener result of a call -/

/-- The scope under which `RequestBlobsByRange` and `RequestBlobsByList` open
the stream. -/
def callCtx {τ : Type} (env : Env τ) (p : Peer τ) : Ctx :=
  .withTimeout p.resCtx env.NewStreamTimeout

/-- The stream-opener result of a range fetch. -/
def rangeOpen {τ : Type} (env : Env τ) (p : Peer τ) : Option StreamH × Option GoError :=
  p.newStreamFn (callCtx env p) p.id
    (env.GetProtocolID env.RequestBlobsByRangeProtocolID p.chainId)

/-- The stream-opener result of a list fetch. -/
def listOpen {τ : Type} (env : Env τ) (p : Peer τ) : Option StreamH × Option GoError :=
  p.newStreamFn (callCtx env p) p.id
    (env.GetProtocolID env.RequestBlobsByListProtocolID p.chainId)

/-- The machine environment: IEEE arithmetic, the tracker of the specification
and a window of `5 * 2` seconds. -/
def machineEnv : Env Tracker :=
  specEnv ieee (fun _ => 0) (.fin 5) (.fin 2) okExchange closeOk

/-- The peer that `NewPeer` builds on the machine environment from the sample
id, `initRequestSize = 65536` and `minRequestSize = 4096`. -/
def builtPeer : Peer Tracker where
  id := samplePeerId
  newStreamFn := openOk
  chainId := 3333
  direction := .dirOutbound
  version := 1
  shards := sampleShards
  minRequestSize := machineEnv.fl.ofUInt64 4096
  tracker := machineEnv.NewTracker (machineEnv.peerIDString samplePeerId)
    (machineEnv.fl.div (machineEnv.fl.ofUInt64 65536) machineEnv.window)
  resCtx := .withCancel .background
  logger := samplePeerId.take 8

/-- The peer that `NewPeer` builds on the machine environment from the sample
id, `initRequestSize = 65530` and `minRequestSize = 4096`. -/
def seededPeer : Peer Tracker where
  id := samplePeerId
  newStreamFn := openOk
  chainId := 3333
  direction := .dirOutbound
  version := 1
  shards := sampleShards
  minRequestSize := machineEnv.fl.ofUInt64 4096
  tracker := machineEnv.NewTracker (machineEnv.peerIDString samplePeerId)
    (machineEnv.fl.div (machineEnv.fl.ofUInt64 65530) machineEnv.window)
  resCtx := .withCancel .background
  logger := samplePeerId.take 8

/-! ## Unfolding the fetch operations -/

theorem range_of_fail {τ : Type} (env : Env τ) (p : Peer τ) (id contract shardId origin limit
    blobs : Nat) (s : Option StreamH) (e : GoError) (h : rangeOpen env p = (s, some e)) :
    RequestBlobsByRange env p id contract shardId origin limit blobs =
      { status := env.streamError, err := some e, peer := p
        trace := [.logTrace p.logger "Fetching KVs"
            [("reqId", .num id), ("contract", .addr contract), ("shardId", .num shardId),
              ("origin", .num origin), ("limit", .num limit)],
          .withTimeout p.resCtx env.NewStreamTimeout,
          .newStream (callCtx env p) p.id
            (env.GetProtocolID env.RequestBlobsByRangeProtocolID p.chainId),
          .cancel (callCtx env p)] } := by
  unfold rangeOpen callCtx at h
  simp [RequestBlobsByRange, h, callCtx]

theorem range_of_ok {τ : Type} (env : Env τ) (p : Peer τ) (id contract shardId origin limit
    blobs : Nat) (s : Option StreamH) (h : rangeOpen env p = (s, none)) :
    RequestBlobsByRange env p id contract shardId origin limit blobs =
      { status := (env.SendRPC s (.byRange id contract shardId origin limit
            (getRequestSize env p)) (.byRange blobs)).1
        err := (env.SendRPC s (.byRange id contract shardId origin limit
            (getRequestSize env p)) (.byRange blobs)).2
        peer := p
        trace := [.logTrace p.logger "Fetching KVs"
            [("reqId", .num id), ("contract", .addr contract), ("shardId", .num shardId),
              ("origin", .num origin), ("limit", .num limit)],
          .withTimeout p.resCtx env.NewStreamTimeout,
          .newStream (callCtx env p) p.id
            (env.GetProtocolID env.RequestBlobsByRangeProtocolID p.chainId),
          .capacity env.window,
          .sendRPC s (.byRange id contract shardId origin limit (getRequestSize env p))
            (.byRange blobs)] ++ deferredClose env s ++ [.cancel (callCtx env p)] } := by
  unfold rangeOpen callCtx at h
  simp [RequestBlobsByRange, h, callCtx]

theorem list_of_fail {τ : Type} (env : Env τ) (p : Peer τ) (id contract shardId : Nat)
    (kvList : List Nat) (blobs : Nat) (s : Option StreamH) (e : GoError)
    (h : listOpen env p = (s, some e)) :
    RequestBlobsByList env p id contract shardId kvList blobs =
      { status := env.streamError, err := some e, peer := p
        trace := [.logTrace p.logger "Fetching KVs"
            [("reqId", .num id), ("contract", .addr contract), ("shardId", .num shardId),
              ("count", .num kvList.length)],
          .withTimeout p.resCtx env.NewStreamTimeout,
          .newStream (callCtx env p) p.id
            (env.GetProtocolID env.RequestBlobsByListProtocolID p.chainId),
          .cancel (callCtx env p)] } := by
  unfold listOpen callCtx at h
  simp [RequestBlobsByList, h, callCtx]

theorem list_of_ok {τ : Type} (env : Env τ) (p : Peer τ) (id contract shardId : Nat)
    (kvList : List Nat) (blobs : Nat) (s : Option StreamH) (h : listOpen env p = (s, none)) :
    RequestBlobsByList env p id contract shardId kvList blobs =
      { status := (env.SendRPC s (.byList id contract shardId kvList
            (getRequestSize env p)) (.byList blobs)).1
        err := (env.SendRPC s (.byList id contract shardId kvList
            (getRequestSize env p)) (.byList blobs)).2
        peer := p
        trace := [.logTrace p.logger "Fetching KVs"
            [("reqId", .num id), ("contract", .addr contract), ("shardId", .num shardId),
              ("count", .num kvList.length)],
          .withTimeout p.resCtx env.NewStreamTimeout,
          .newStream (callCtx env p) p.id
            (env.GetProtocolID env.RequestBlobsByListProtocolID p.chainId),
          .capacity env.window,
          .sendRPC s (.byList id contract shardId kvList (getRequestSize env p))
            (.byList blobs)] ++ deferredClose env s ++ [.cancel (callCtx env p)] } := by
  unfold listOpen callCtx at h
  simp [RequestBlobsByList, h, callCtx]

/-- A stream-opener result is a failure with its error, or a success. -/
theorem open_cases (r : Option StreamH × Option GoError) :
    (∃ s e, r = (s, some e)) ∨ (∃ s, r = (s, none)) := by
  rcases r with ⟨s, _ | e⟩
  · exact Or.inr ⟨s, rfl⟩
  · exact Or.inl ⟨s, e, rfl⟩

theorem exchanges_deferredClose {τ : Type} (env : Env τ) (s : Option StreamH)
    (es : List Event) : exchanges (deferredClose env s ++ es) = exchanges es := by
  cases s <;> simp [deferredClose, exchanges]

theorem opens_deferredClose {τ : Type} (env : Env τ) (s : Option StreamH)
    (es : List Event) : opens (deferredClose env s ++ es) = opens es := by
  cases s <;> simp [deferredClose, opens]

theorem trackerReads_deferredClose {τ : Type} (env : Env τ) (s : Option StreamH)
    (es : List Event) : trackerReads (deferredClose env s ++ es) = trackerReads es := by
  cases s <;> simp [deferredClose, trackerReads]

theorem errorLogged_deferredClose {τ : Type} (env : Env τ) (s : Option StreamH)
    (e : GoError) (es : List Event) :
    errorLogged e (deferredClose env s ++ es) = errorLogged e es := by
  cases s <;> simp [deferredClose, errorLogged]

theorem closes_deferredClose {τ : Type} (env : Env τ) (s : Option StreamH)
    (es : List Event) : closes (deferredClose env s ++ es) = s.toList ++ closes es := by
  cases s <;> simp [deferredClose, closes]

/-! ## The shard predicate -/

/-- C1: `IsShardExist(c, s)` is true exactly when the shard map has an entry for
`c` and `s` occurs in `shards[c]`; it is false when `c` is absent or `shards[c]`
is empty, and two shard lists with the same members (whatever their order and
their duplicates) give the same answer. -/
theorem isShardExist_iff {τ : Type} (p : Peer τ) (c : Address) (s : Nat) :
    (IsShardExist p c s = true ↔ ∃ ids, p.shards c = some ids ∧ s ∈ ids) ∧
    (p.shards c = none → IsShardExist p c s = false) ∧
    (p.shards c = some [] → IsShardExist p c s = false) ∧
    (∀ (q : Peer τ) (ids ids' : List Nat), p.shards c = some ids → q.shards c = some ids' →
      (∀ x, x ∈ ids ↔ x ∈ ids') → IsShardExist q c s = IsShardExist p c s) := by
  refine ⟨?_, ?_, ?_, ?_⟩
  · unfold IsShardExist
    cases h : p.shards c with
    | none => simp
    | some ids => simp
  · intro h
    simp [IsShardExist, h]
  · intro h
    simp [IsShardExist, h]
  · intro q ids ids' hp hq hmem
    simp only [IsShardExist, hp, hq]
    by_cases hs : s ∈ ids
    · have hs' : s ∈ ids' := (hmem s).1 hs
      simp [hs, hs']
    · have hs' : ¬ s ∈ ids' := fun h => hs ((hmem s).2 h)
      simp [hs, hs']

/-- The example of the specification: with `shards = {0xAA: [1, 3]}`, shard `3`
of `0xAA` exists, shard `2` of `0xAA` and shard `1` of `0xBB` do not. -/
theorem isShardExist_iff_witness :
    IsShardExist (samplePeer openOk) 0xAA 3 = true ∧
    IsShardExist (samplePeer openOk) 0xAA 2 = false ∧
    IsShardExist (samplePeer openOk) 0xBB 1 = false :=
  ⟨(isShardExist_iff (samplePeer openOk) 0xAA 3).1.2 ⟨[1, 3], by decide, by decide⟩,
    by decide,
    (isShardExist_iff (samplePeer openOk) 0xBB 1).2.1 (by decide)⟩

/-! ## The fetch operations: what a call does -/

/-- C3: when the stream opener returns an error, `RequestBlobsByRange` and
`RequestBlobsByList` return the status `streamError` with exactly that error,
`SendRPC` is not invoked and nothing is closed. -/
theorem open_failure_returns_streamError {τ : Type} (env : Env τ) (p : Peer τ)
    (id contract shardId origin limit : Nat) (kvList : List Nat) (blobs : Nat) :
    (∀ s e, rangeOpen env p = (s, some e) →
      (RequestBlobsByRange env p id contract shardId origin limit blobs).status
          = env.streamError ∧
      (RequestBlobsByRange env p id contract shardId origin limit blobs).err = some e ∧
      exchanges (RequestBlobsByRange env p id contract shardId origin limit blobs).trace = [] ∧
      closes (RequestBlobsByRange env p id contract shardId origin limit blobs).trace = []) ∧
    (∀ s e, listOpen env p = (s, some e) →
      (RequestBlobsByList env p id contract shardId kvList blobs).status = env.streamError ∧
      (RequestBlobsByList env p id contract shardId kvList blobs).err = some e ∧
      exchanges (RequestBlobsByList env p id contract shardId kvList blobs).trace = [] ∧
      closes (RequestBlobsByList env p id contract shardId kvList blobs).trace = []) := by
  constructor
  · intro s e h
    rw [range_of_fail env p id contract shardId origin limit blobs s e h]
    simp [exchanges, closes]
  · intro s e h
    rw [list_of_fail env p id contract shardId kvList blobs s e h]
    simp [exchanges, closes]

/-- A failing opener: both calls return `(streamError, "dial backoff")`. -/
theorem open_failure_returns_streamError_witness :
    ((RequestBlobsByRange (sampleEnv okExchange closeOk) (samplePeer openFail) 1 0xAA 3 0 16
        500).status = 1 ∧
      (RequestBlobsByRange (sampleEnv okExchange closeOk) (samplePeer openFail) 1 0xAA 3 0 16
        500).err = some "dial backoff") ∧
    ((RequestBlobsByList (sampleEnv okExchange closeOk) (samplePeer openFail) 1 0xAA 3 [4, 2]
        500).status = 1 ∧
      (RequestBlobsByList (sampleEnv okExchange closeOk) (samplePeer openFail) 1 0xAA 3 [4, 2]
        500).err = some "dial backoff") :=
  have h := open_failure_returns_streamError (sampleEnv okExchange closeOk)
    (samplePeer openFail) 1 0xAA 3 0 16 [4, 2] 500
  ⟨⟨(h.1 none "dial backoff" rfl).1, (h.1 none "dial backoff" rfl).2.1⟩,
    ⟨(h.2 none "dial backoff" rfl).1, (h.2 none "dial backoff" rfl).2.1⟩⟩

/-- C4: in the trace of one call of `RequestBlobsByRange` or
`RequestBlobsByList`, the streams closed are exactly the streams that the
stream opener handed over without error: each one is closed once, whatever the
exchange yields, and nothing else is closed. -/
theorem every_opened_stream_closed_once {τ : Type} (env : Env τ) (p : Peer τ)
    (id contract shardId origin limit : Nat) (kvList : List Nat) (blobs : Nat) :
    closes (RequestBlobsByRange env p id contract shardId origin limit blobs).trace
      = streamsOpened (rangeOpen env p) ∧
    closes (RequestBlobsByList env p id contract shardId kvList blobs).trace
      = streamsOpened (listOpen env p) := by
  constructor
  · rcases open_cases (rangeOpen env p) with ⟨s, e, h⟩ | ⟨s, h⟩
    · rw [range_of_fail env p id contract shardId origin limit blobs s e h, h]
      cases s <;> simp [closes, streamsOpened]
    · rw [range_of_ok env p id contract shardId origin limit blobs s h, h]
      cases s <;> simp [closes, streamsOpened, deferredClose]
  · rcases open_cases (listOpen env p) with ⟨s, e, h⟩ | ⟨s, h⟩
    · rw [list_of_fail env p id contract shardId kvList blobs s e h, h]
      cases s <;> simp [closes, streamsOpened]
    · rw [list_of_ok env p id contract shardId kvList blobs s h, h]
      cases s <;> simp [closes, streamsOpened, deferredClose]

/-- C7: when the stream opens without error, the only exchange of the call is
`SendRPC` on the opened stream with the packet made of the caller's arguments
and `Bytes = getRequestSize()`, and with the caller's own response buffer. -/
theorem request_packet_carries_arguments {τ : Type} (env : Env τ) (p : Peer τ)
    (id contract shardId origin limit : Nat) (kvList : List Nat) (blobs : Nat) :
    (∀ s, rangeOpen env p = (s, none) →
      exchanges (RequestBlobsByRange env p id contract shardId origin limit blobs).trace
        = [(s, Request.byRange id contract shardId origin limit (getRequestSize env p),
            RespBuf.byRange blobs)]) ∧
    (∀ s, listOpen env p = (s, none) →
      exchanges (RequestBlobsByList env p id contract shardId kvList blobs).trace
        = [(s, Request.byList id contract shardId kvList (getRequestSize env p),
            RespBuf.byList blobs)]) := by
  constructor
  · intro s h
    rw [range_of_ok env p id contract shardId origin limit blobs s h]
    simp [exchanges, exchanges_deferredClose]
  · intro s h
    rw [list_of_ok env p id contract shardId kvList blobs s h]
    simp [exchanges, exchanges_deferredClose]

/-- C9: one call of `RequestBlobsByRange` or `RequestBlobsByList` calls the
stream opener exactly once, with the peer's id and the protocol id of the
operation's kind and the peer's chain id, and calls `SendRPC` once if the opener
returned no error and not at all if it returned one. -/
theorem no_retries {τ : Type} (env : Env τ) (p : Peer τ)
    (id contract shardId origin limit : Nat) (kvList : List Nat) (blobs : Nat) :
    (opens (RequestBlobsByRange env p id contract shardId origin limit blobs).trace
        = [(callCtx env p, p.id,
            env.GetProtocolID env.RequestBlobsByRangeProtocolID p.chainId)] ∧
      (exchanges (RequestBlobsByRange env p id contract shardId origin limit blobs).trace).length
        = if (rangeOpen env p).2 = none then 1 else 0) ∧
    (opens (RequestBlobsByList env p id contract shardId kvList blobs).trace
        = [(callCtx env p, p.id,
            env.GetProtocolID env.RequestBlobsByListProtocolID p.chainId)] ∧
      (exchanges (RequestBlobsByList env p id contract shardId kvList blobs).trace).length
        = if (listOpen env p).2 = none then 1 else 0) := by
  constructor
  · rcases open_cases (rangeOpen env p) with ⟨s, e, h⟩ | ⟨s, h⟩
    · rw [range_of_fail env p id contract shardId origin limit blobs s e h, h]
      simp [opens, exchanges]
    · rw [range_of_ok env p id contract shardId origin limit blobs s h, h]
      simp [opens, exchanges, exchanges_deferredClose, opens_deferredClose]
  · rcases open_cases (listOpen env p) with ⟨s, e, h⟩ | ⟨s, h⟩
    · rw [list_of_fail env p id contract shardId kvList blobs s e h, h]
      simp [opens, exchanges]
    · rw [list_of_ok env p id contract shardId kvList blobs s h, h]
      simp [opens, exchanges, exchanges_deferredClose, opens_deferredClose]

/-- C7 at the sample peer: the packets of a range fetch and of a list fetch. -/
theorem request_packet_carries_arguments_witness :
    exchanges (RequestBlobsByRange (sampleEnv okExchange closeOk) (samplePeer openOk) 1 0xAA 3
        0 16 500).trace
      = [(some 7, Request.byRange 1 0xAA 3 0 16
          (getRequestSize (sampleEnv okExchange closeOk) (samplePeer openOk)),
          RespBuf.byRange 500)] ∧
    exchanges (RequestBlobsByList (sampleEnv okExchange closeOk) (samplePeer openOk) 1 0xAA 3
        [4, 2, 4] 501).trace
      = [(some 7, Request.byList 1 0xAA 3 [4, 2, 4]
          (getRequestSize (sampleEnv okExchange closeOk) (samplePeer openOk)),
          RespBuf.byList 501)] :=
  ⟨(request_packet_carries_arguments (sampleEnv okExchange closeOk) (samplePeer openOk)
      1 0xAA 3 0 16 [4, 2, 4] 500).1 (some 7) rfl,
    (request_packet_carries_arguments (sampleEnv okExchange closeOk) (samplePeer openOk)
      1 0xAA 3 0 16 [4, 2, 4] 501).2 (some 7) rfl⟩

/-! ## The fetch operations: what a call leaves out -/

/-- C5, as stated, fails: `Close` returns the error `"stream reset"` in a range
fetch and in a list fetch, and no log record of either call carries it. -/
theorem close_error_is_not_logged :
    (closeErrors (RequestBlobsByRange (sampleEnv okExchange closeFail) (samplePeer openOk) 1
        0xAA 3 0 16 500).trace = ["stream reset"] ∧
      errorLogged "stream reset" (RequestBlobsByRange (sampleEnv okExchange closeFail)
        (samplePeer openOk) 1 0xAA 3 0 16 500).trace = false) ∧
    (closeErrors (RequestBlobsByList (sampleEnv okExchange closeFail) (samplePeer openOk) 1
        0xAA 3 [4, 2] 500).trace = ["stream reset"] ∧
      errorLogged "stream reset" (RequestBlobsByList (sampleEnv okExchange closeFail)
        (samplePeer openOk) 1 0xAA 3 [4, 2] 500).trace = false) := by
  rw [range_of_ok (sampleEnv okExchange closeFail) (samplePeer openOk) 1 0xAA 3 0 16 500
      (some 7) rfl,
    list_of_ok (sampleEnv okExchange closeFail) (samplePeer openOk) 1 0xAA 3 [4, 2] 500
      (some 7) rfl]
  simp [closeErrors, errorLogged, deferredClose, sampleEnv, specEnv, closeFail]

/-- C5, amended: when the stream opens without error, the returned pair is the
pair of the one `SendRPC` exchange; it is the same whatever `Close` returns; and
the error of `Close` is dropped: no log record of the call carries any error. -/
theorem close_error_never_alters_result {τ : Type} (env : Env τ) (p : Peer τ)
    (id contract shardId origin limit : Nat) (kvList : List Nat) (blobs : Nat) :
    (∀ s, rangeOpen env p = (s, none) →
      ((RequestBlobsByRange env p id contract shardId origin limit blobs).status,
        (RequestBlobsByRange env p id contract shardId origin limit blobs).err)
        = env.SendRPC s (.byRange id contract shardId origin limit (getRequestSize env p))
            (.byRange blobs) ∧
      (∀ close : StreamH → Option GoError,
        (RequestBlobsByRange { env with Close := close } p id contract shardId origin limit
            blobs).status
          = (RequestBlobsByRange env p id contract shardId origin limit blobs).status ∧
        (RequestBlobsByRange { env with Close := close } p id contract shardId origin limit
            blobs).err
          = (RequestBlobsByRange env p id contract shardId origin limit blobs).err) ∧
      (∀ e, errorLogged e
        (RequestBlobsByRange env p id contract shardId origin limit blobs).trace = false)) ∧
    (∀ s, listOpen env p = (s, none) →
      ((RequestBlobsByList env p id contract shardId kvList blobs).status,
        (RequestBlobsByList env p id contract shardId kvList blobs).err)
        = env.SendRPC s (.byList id contract shardId kvList (getRequestSize env p))
            (.byList blobs) ∧
      (∀ close : StreamH → Option GoError,
        (RequestBlobsByList { env with Close := close } p id contract shardId kvList
            blobs).status
          = (RequestBlobsByList env p id contract shardId kvList blobs).status ∧
        (RequestBlobsByList { env with Close := close } p id contract shardId kvList
            blobs).err
          = (RequestBlobsByList env p id contract shardId kvList blobs).err) ∧
      (∀ e, errorLogged e
        (RequestBlobsByList env p id contract shardId kvList blobs).trace = false)) := by
  constructor
  · intro s h
    refine ⟨?_, ?_, ?_⟩
    · rw [range_of_ok env p id contract shardId origin limit blobs s h]
    · intro close
      rw [range_of_ok env p id contract shardId origin limit blobs s h,
        range_of_ok { env with Close := close } p id contract shardId origin limit blobs s h]
      exact ⟨rfl, rfl⟩
    · intro e
      rw [range_of_ok env p id contract shardId origin limit blobs s h]
      cases s <;> simp [errorLogged, deferredClose]
  · intro s h
    refine ⟨?_, ?_, ?_⟩
    · rw [list_of_ok env p id contract shardId kvList blobs s h]
    · intro close
      rw [list_of_ok env p id contract shardId kvList blobs s h,
        list_of_ok { env with Close := close } p id contract shardId kvList blobs s h]
      exact ⟨rfl, rfl⟩
    · intro e
      rw [list_of_ok env p id contract shardId kvList blobs s h]
      cases s <;> simp [errorLogged, deferredClose]

/-- C5 amended, at the sample peer with a failing `Close`: a timed-out range
fetch returns the exchange's `(3, "i/o deadline reached")`. -/
theorem close_error_never_alters_result_witness :
    ((RequestBlobsByRange (sampleEnv timeoutExchange closeFail) (samplePeer openOk) 1 0xAA 3 0
        16 500).status,
      (RequestBlobsByRange (sampleEnv timeoutExchange closeFail) (samplePeer openOk) 1 0xAA 3 0
        16 500).err) = (3, some "i/o deadline reached") :=
  ((close_error_never_alters_result (sampleEnv timeoutExchange closeFail) (samplePeer openOk)
    1 0xAA 3 0 16 [] 500).1 (some 7) rfl).1

/-- C6, as stated, fails: after a successful range fetch, after a timed-out list
fetch and after a range fetch whose stream did not open, the tracker of the
peer is the tracker it was before the call. -/
theorem tracker_unchanged_by_fetch :
    (RequestBlobsByRange (sampleEnv okExchange closeOk) (samplePeer openOk) 1 0xAA 3 0 16
        500).peer.tracker = { name := "sample", estimate := .fin 1000 } ∧
    (RequestBlobsByList (sampleEnv timeoutExchange closeOk) (samplePeer openOk) 1 0xAA 3 [4, 2]
        500).peer.tracker = { name := "sample", estimate := .fin 1000 } ∧
    (RequestBlobsByRange (sampleEnv okExchange closeOk) (samplePeer openFail) 1 0xAA 3 0 16
        500).peer.tracker = { name := "sample", estimate := .fin 1000 } :=
  ⟨rfl, rfl, rfl⟩

/-- C6, amended: a fetch call never mutates the tracker.  The tracker after
`RequestBlobsByRange` or `RequestBlobsByList` is the tracker before it, and the
call's only use of the tracker is one `Capacity(window)` read, made when the
stream opens without error (none when it does not). -/
theorem fetch_only_reads_tracker {τ : Type} (env : Env τ) (p : Peer τ)
    (id contract shardId origin limit : Nat) (kvList : List Nat) (blobs : Nat) :
    ((RequestBlobsByRange env p id contract shardId origin limit blobs).peer.tracker
        = p.tracker ∧
      trackerReads (RequestBlobsByRange env p id contract shardId origin limit blobs).trace
        = if (rangeOpen env p).2 = none then [env.window] else []) ∧
    ((RequestBlobsByList env p id contract shardId kvList blobs).peer.tracker = p.tracker ∧
      trackerReads (RequestBlobsByList env p id contract shardId kvList blobs).trace
        = if (listOpen env p).2 = none then [env.window] else []) := by
  constructor
  · rcases open_cases (rangeOpen env p) with ⟨s, e, h⟩ | ⟨s, h⟩
    · rw [range_of_fail env p id contract shardId origin limit blobs s e h, h]
      simp [trackerReads]
    · rw [range_of_ok env p id contract shardId origin limit blobs s h, h]
      simp [trackerReads, trackerReads_deferredClose]
  · rcases open_cases (listOpen env p) with ⟨s, e, h⟩ | ⟨s, h⟩
    · rw [list_of_fail env p id contract shardId kvList blobs s e h, h]
      simp [trackerReads]
    · rw [list_of_ok env p id contract shardId kvList blobs s h, h]
      simp [trackerReads, trackerReads_deferredClose]

/-! ## The request-size budget -/

theorem roundHalfEven_natCast (k : Nat) : roundHalfEven (k : ℚ) = k := by
  simp [roundHalfEven]

theorem roundBinary64_ten : roundBinary64 10 = .fin 10 := by
  have hn : Nat.log 2 10 = 3 := by
    rw [Nat.log_eq_iff] <;> norm_num
  have hr : roundHalfEven 5629499534213120 = 5629499534213120 := by
    have := roundHalfEven_natCast 5629499534213120
    simpa using this
  unfold roundBinary64
  norm_num [hn, hr]

theorem machineEnv_window : machineEnv.window = .fin 10 := by
  have h : ieeeMul (.fin 5) (.fin 2) = roundBinary64 10 := by
    simp only [ieeeMul]
    norm_num
  simpa [machineEnv, specEnv, Env.window, ieee, roundBinary64_ten] using h

theorem float64OfUInt64_of_le (m : Nat) (h : m ≤ 2 ^ 53) : float64OfUInt64 m = m := by
  rcases Nat.lt_or_ge m (2 ^ 53) with hlt | hge
  · unfold float64OfUInt64
    rw [if_pos hlt]
  · have : m = 2 ^ 53 := Nat.le_antisymm h hge
    subst this
    decide

/-- In range, `uint64(f)` is the floor. -/
theorem toUInt64_fin (d : F64 → Nat) (q : ℚ) (h0 : 0 ≤ q) (h1 : q < 2 ^ 64) :
    toUInt64 d (.fin q) = ⌊q⌋.toNat := by
  have : (-1 : ℚ) < q := by linarith
  simp [toUInt64, this, h1]

/-- A peer that `NewPeer` returns holds the converted floor and the seeded
tracker. -/
theorem newPeer_fields {τ : Type} (env : Env τ) (version : Nat) (chainId : Int)
    (peerId : PeerID) (newStream : NewStreamFn) (direction : Direction)
    (i m : Nat) (shards : Address → Option (List Nat)) (p : Peer τ)
    (hp : NewPeer env version chainId peerId newStream direction i m shards = some p) :
    p.minRequestSize = env.fl.ofUInt64 m ∧
    p.tracker = env.NewTracker (env.peerIDString peerId)
      (env.fl.div (env.fl.ofUInt64 i) env.window) := by
  unfold NewPeer at hp
  split at hp
  · cases hp
    exact ⟨rfl, rfl⟩
  · cases hp

/-- C2, as stated, fails: on the machine's float64 arithmetic, the peer built
with `initRequestSize = 0` and `minRequestSize = 2^53 + 1` has
`getRequestSize() = 2^53`, which is below the `minRequestSize` it was built
with. -/
theorem getRequestSize_below_minRequestSize :
    (NewPeer machineEnv 1 3333 samplePeerId openOk .dirOutbound 0 9007199254740993
        sampleShards).map (getRequestSize machineEnv) = some 9007199254740992 ∧
    9007199254740992 < 9007199254740993 := by
  refine ⟨?_, by decide⟩
  have hm : float64OfUInt64 9007199254740993 = 9007199254740992 := by decide
  have h0 : float64OfUInt64 0 = 0 := by decide
  have hw := machineEnv_window
  have hlen : 8 ≤ samplePeerId.length := by decide
  simp only [NewPeer, hlen, if_true, Option.map, getRequestSize, hw]
  simp [machineEnv, specEnv, ieee, Tracker.Capacity, Tracker.new, ieeeDiv, ieeeMul, hm, h0,
    roundBinary64, floorZero, mathMax, toUInt64]
  norm_num
  rfl

/-- C2, amended: for a peer built by `NewPeer` on the machine's conversion
`float64(minRequestSize)`, and for every tracker state whose `Capacity(window)`
is neither NaN nor `+Inf` and, if finite, is below `2^64` (with
`float64(minRequestSize)` below `2^64` too): `getRequestSize()` is
`max(Capacity(window), float64(minRequestSize))` truncated, it is at least
`float64(minRequestSize)`, and it is at least `minRequestSize` whenever
`minRequestSize ≤ 2^53`. -/
theorem getRequestSize_ge_converted_min {τ : Type} (env : Env τ)
    (hconv : env.fl.ofUInt64 = ieee.ofUInt64) (version : Nat) (chainId : Int)
    (peerId : PeerID) (newStream : NewStreamFn) (direction : Direction)
    (i m : Nat) (shards : Address → Option (List Nat)) (p : Peer τ)
    (hp : NewPeer env version chainId peerId newStream direction i m shards = some p)
    (t : τ) (hnan : env.Capacity t env.window ≠ .nan)
    (hinf : env.Capacity t env.window ≠ .inf false)
    (hlt : ∀ c, env.Capacity t env.window = .fin c → c < 2 ^ 64)
    (hm : float64OfUInt64 m < 2 ^ 64) :
    (∀ c, env.Capacity t env.window = .fin c →
      getRequestSize env { p with tracker := t }
        = ⌊max c (float64OfUInt64 m : ℚ)⌋.toNat) ∧
    (env.Capacity t env.window = .inf true →
      getRequestSize env { p with tracker := t } = float64OfUInt64 m) ∧
    float64OfUInt64 m ≤ getRequestSize env { p with tracker := t } ∧
    (m ≤ 2 ^ 53 → m ≤ getRequestSize env { p with tracker := t }) := by
  have hmin : p.minRequestSize = .fin (float64OfUInt64 m) := by
    rw [(newPeer_fields env version chainId peerId newStream direction i m shards p hp).1,
      hconv]
    rfl
  have hmq : ((float64OfUInt64 m : Nat) : ℚ) < 2 ^ 64 := by exact_mod_cast hm
  have hm0 : (0 : ℚ) ≤ (float64OfUInt64 m : ℚ) := Nat.cast_nonneg _
  have hfin : ∀ c, env.Capacity t env.window = .fin c →
      getRequestSize env { p with tracker := t }
        = ⌊max c (float64OfUInt64 m : ℚ)⌋.toNat := by
    intro c hc
    have hc64 := hlt c hc
    simp only [getRequestSize, hc, hmin, mathMax]
    by_cases hgt : c > (float64OfUInt64 m : ℚ)
    · rw [if_pos hgt, toUInt64_fin _ c (le_trans hm0 (le_of_lt hgt)) hc64,
        max_eq_left (le_of_lt hgt)]
    · rw [if_neg hgt, toUInt64_fin _ _ hm0 hmq, max_eq_right (not_lt.mp hgt)]
  have hneg : env.Capacity t env.window = .inf true →
      getRequestSize env { p with tracker := t } = float64OfUInt64 m := by
    intro hc
    simp only [getRequestSize, hc, hmin, mathMax]
    rw [toUInt64_fin _ _ hm0 hmq]
    simp
  have hge : float64OfUInt64 m ≤ getRequestSize env { p with tracker := t } := by
    cases hc : env.Capacity t env.window with
    | nan => exact absurd hc hnan
    | inf neg =>
      cases neg with
      | false => exact absurd hc hinf
      | true => exact le_of_eq (hneg hc).symm
    | fin c =>
      rw [hfin c hc]
      have h1 : ((float64OfUInt64 m : Nat) : ℤ) ≤ ⌊max c (float64OfUInt64 m : ℚ)⌋ := by
        apply Int.le_floor.mpr
        simp
      omega
  refine ⟨hfin, hneg, hge, ?_⟩
  intro hle
  have := float64OfUInt64_of_le m hle
  omega

theorem newPeer_builtPeer :
    NewPeer machineEnv 1 3333 samplePeerId openOk .dirOutbound 65536 4096 sampleShards
      = some builtPeer := by
  have hlen : 8 ≤ samplePeerId.length := by decide
  simp only [NewPeer, hlen, if_true, builtPeer]

theorem machineEnv_capacity_zero :
    machineEnv.Capacity { name := "sample", estimate := .fin 0 } machineEnv.window
      = .fin 0 := by
  rw [machineEnv_window]
  simp [machineEnv, specEnv, Tracker.Capacity, ieee, ieeeMul, roundBinary64, floorZero]

/-- C2 amended, at a peer built with the floor `4096` and a tracker whose
estimate is `0`: `getRequestSize()` is at least `4096`. -/
theorem getRequestSize_ge_converted_min_witness :
    4096 ≤ getRequestSize machineEnv
      { builtPeer with tracker := { name := "sample", estimate := .fin 0 } } :=
  (getRequestSize_ge_converted_min machineEnv rfl 1 3333 samplePeerId openOk
    .dirOutbound 65536 4096 sampleShards builtPeer newPeer_builtPeer
    { name := "sample", estimate := .fin 0 }
    (by rw [machineEnv_capacity_zero]; simp)
    (by rw [machineEnv_capacity_zero]; simp)
    (by
      intro c hc
      rw [machineEnv_capacity_zero] at hc
      cases hc
      norm_num)
    (by decide)).2.2.2 (by decide)

/-! ## Seeding and reading the tracker -/

theorem two_zpow_sub (e : Nat) (he : e ≤ 52) :
    (2 : ℚ) ^ ((e : ℤ) - 52) = 1 / (2 : ℚ) ^ (52 - e) := by
  have h : ((e : ℤ) - 52) = -((52 - e : ℕ) : ℤ) := by omega
  rw [h, zpow_neg, zpow_natCast, one_div]

/-- A positive integer below `2^53` is a float64: rounding leaves it as it is. -/
theorem roundBinary64_natCast (k : Nat) (hk0 : 0 < k) (hk : k < 2 ^ 53) :
    roundBinary64 (k : ℚ) = .fin k := by
  have hq0 : (k : ℚ) ≠ 0 := by exact_mod_cast (Nat.pos_iff_ne_zero.mp hk0)
  have hpos : (0 : ℚ) < k := by exact_mod_cast hk0
  have he : Nat.log 2 k ≤ 52 := by
    have := Nat.log_lt_of_lt_pow (Nat.pos_iff_ne_zero.mp hk0) hk
    omega
  have hp : max ((Nat.log 2 k : ℤ) - 52) (-1074) = (Nat.log 2 k : ℤ) - 52 := by
    apply max_eq_left
    omega
  have hpow : (0 : ℚ) < (2 : ℚ) ^ (52 - Nat.log 2 k) := by positivity
  have hm : (k : ℚ) / (2 : ℚ) ^ ((Nat.log 2 k : ℤ) - 52)
      = ((k * 2 ^ (52 - Nat.log 2 k) : ℕ) : ℚ) := by
    rw [two_zpow_sub _ he]
    push_cast
    field_simp
  have hv : ((k * 2 ^ (52 - Nat.log 2 k) : ℕ) : ℚ) * (2 : ℚ) ^ ((Nat.log 2 k : ℤ) - 52)
      = k := by
    rw [two_zpow_sub _ he]
    push_cast
    field_simp
  have hbig : ¬ ((2 : ℚ) ^ (1024 : ℕ) ≤ (k : ℚ)) := by
    have h1 : (k : ℚ) < 2 ^ 53 := by exact_mod_cast hk
    have h2 : (2 : ℚ) ^ 53 ≤ 2 ^ 1024 := by norm_num
    intro h
    linarith
  have hneg : ¬ ((k : ℚ) < 0) := not_lt.mpr (le_of_lt hpos)
  unfold roundBinary64
  rw [if_neg hq0]
  simp only [abs_of_pos hpos, Int.log_natCast, hp, hm, roundHalfEven_natCast, hv, hbig, hneg,
    if_false]

theorem newPeer_seededPeer :
    NewPeer machineEnv 1 3333 samplePeerId openOk .dirOutbound 65530 4096 sampleShards
      = some seededPeer := by
  have hlen : 8 ≤ samplePeerId.length := by decide
  simp only [NewPeer, hlen, if_true, seededPeer]

/-- On the machine, `65530 / 10` is the float64 `6553`. -/
theorem ieee_div_sample :
    ieee.div (.fin ((65530 : Nat) : ℚ)) (.fin 10) = .fin (((65530 : Nat) : ℚ) / 10) := by
  have h : ((65530 : Nat) : ℚ) / 10 = ((6553 : Nat) : ℚ) := by norm_num
  have h10 : ¬ ((10 : ℚ) = 0) := by norm_num
  simp only [ieee, ieeeDiv, if_neg h10]
  rw [h]
  exact roundBinary64_natCast 6553 (by decide) (by decide)

/-- On the machine, `6553 * 10` is the float64 `65530`. -/
theorem ieee_mul_sample :
    ieee.mul (.fin (((65530 : Nat) : ℚ) / 10)) (.fin 10)
      = .fin (((65530 : Nat) : ℚ) / 10 * 10) := by
  have h : ((65530 : Nat) : ℚ) / 10 * 10 = ((65530 : Nat) : ℚ) := by norm_num
  simp only [ieee, ieeeMul]
  rw [h]
  exact roundBinary64_natCast 65530 (by decide) (by decide)

/-- C10: on the machine's float64 arithmetic, when no operation of the round
trip rounds (the conversions of `i` and `m`, the quotient `i / w` and the
product `(i / w) × w` are exact), with a positive window `w` and a tracker whose
fresh `Capacity(window)` is that of the specification (`seed × window` floored
at zero), the peer that `NewPeer` builds from `initRequestSize = i` and
`minRequestSize = m` holds a tracker seeded with `i / w`, and its
`getRequestSize()` is `max(i, m)`. -/
theorem seed_round_trips {τ : Type} (env : Env τ) (hfl : env.fl = ieee) (w : ℚ)
    (hw : env.window = .fin w) (hpos : 0 < w)
    (hcap : ∀ name seed win, env.Capacity (env.NewTracker name seed) win
      = Tracker.Capacity env.fl (Tracker.new name seed) win)
    (version : Nat) (chainId : Int) (peerId : PeerID) (newStream : NewStreamFn)
    (direction : Direction) (i m : Nat) (hi : i < 2 ^ 64) (hm : m < 2 ^ 64)
    (hconvi : ieee.ofUInt64 i = .fin i) (hconvm : ieee.ofUInt64 m = .fin m)
    (hdiv : ieee.div (.fin i) (.fin w) = .fin ((i : ℚ) / w))
    (hmul : ieee.mul (.fin ((i : ℚ) / w)) (.fin w) = .fin ((i : ℚ) / w * w))
    (shards : Address → Option (List Nat)) (p : Peer τ)
    (hp : NewPeer env version chainId peerId newStream direction i m shards = some p) :
    p.tracker = env.NewTracker (env.peerIDString peerId) (.fin ((i : ℚ) / w)) ∧
    getRequestSize env p = max i m := by
  obtain ⟨hmin, htr⟩ :=
    newPeer_fields env version chainId peerId newStream direction i m shards p hp
  have hw0 : w ≠ 0 := ne_of_gt hpos
  have hseed : env.fl.div (env.fl.ofUInt64 i) env.window = .fin ((i : ℚ) / w) := by
    rw [hfl, hw, hconvi, hdiv]
  rw [hseed] at htr
  refine ⟨htr, ?_⟩
  have hcapv : env.Capacity p.tracker env.window = .fin (i : ℚ) := by
    rw [htr, hcap, hfl, hw]
    have hback : (i : ℚ) / w * w = i := div_mul_cancel₀ _ hw0
    have hnn : ¬ ((i : ℚ) < 0) := not_lt.mpr (Nat.cast_nonneg i)
    simp only [Tracker.Capacity, Tracker.new, hmul, hback, floorZero, if_neg hnn]
  have hminv : p.minRequestSize = .fin (m : ℚ) := by
    rw [hmin, hfl, hconvm]
  have hiq : ((i : Nat) : ℚ) < 2 ^ 64 := by exact_mod_cast hi
  have hmq : ((m : Nat) : ℚ) < 2 ^ 64 := by exact_mod_cast hm
  simp only [getRequestSize, hcapv, hminv, mathMax]
  by_cases hgt : (i : ℚ) > (m : ℚ)
  · rw [if_pos hgt, toUInt64_fin _ _ (Nat.cast_nonneg i) hiq]
    have : m < i := by exact_mod_cast hgt
    simp [max_eq_left (le_of_lt this)]
  · rw [if_neg hgt, toUInt64_fin _ _ (Nat.cast_nonneg m) hmq]
    have : i ≤ m := by exact_mod_cast not_lt.mp hgt
    simp [max_eq_right this]

/-- C10 on the machine at `initRequestSize = 65530`, `minRequestSize = 4096` and
a window of `5 * 2` seconds, where `65530 / 10 = 6553` and `6553 × 10 = 65530`
are float64 values: the first budget is `65530`. -/
theorem seed_round_trips_witness :
    getRequestSize machineEnv seededPeer = 65530 :=
  (seed_round_trips machineEnv rfl 10 machineEnv_window (by norm_num)
    (fun _ _ _ => rfl) 1 3333 samplePeerId openOk .dirOutbound 65530 4096 (by decide)
    (by decide)
    (by
      have h := float64OfUInt64_of_le 65530 (by decide)
      simp only [ieee, h])
    (by
      have h := float64OfUInt64_of_le 4096 (by decide)
      simp only [ieee, h])
    ieee_div_sample ieee_mul_sample sampleShards seededPeer newPeer_seededPeer).2

/-! ## The scope of a call -/

/-- C8, as stated, fails: in a range fetch and in a list fetch whose stream
opened, the scope derived from the lifetime scope is handed to the opener only;
the exchange receives the stream, the packet and the buffer, and the call
returns the pair `(0, nil)` of an exchange that takes no notice of any
cancellation: no cancellation error is returned. -/
theorem exchange_result_returned_without_scope :
    (opens (RequestBlobsByRange (sampleEnv okExchange closeOk) (samplePeer openOk) 1 0xAA 3 0
        16 500).trace
      = [(Ctx.withTimeout (.withCancel .background) 10, samplePeerId,
          (sampleEnv okExchange closeOk).GetProtocolID
            (sampleEnv okExchange closeOk).RequestBlobsByRangeProtocolID 3333)] ∧
      exchanges (RequestBlobsByRange (sampleEnv okExchange closeOk) (samplePeer openOk) 1 0xAA
          3 0 16 500).trace
        = [(some 7, Request.byRange 1 0xAA 3 0 16
            (getRequestSize (sampleEnv okExchange closeOk) (samplePeer openOk)),
            RespBuf.byRange 500)] ∧
      (RequestBlobsByRange (sampleEnv okExchange closeOk) (samplePeer openOk) 1 0xAA 3 0 16
        500).status = 0 ∧
      (RequestBlobsByRange (sampleEnv okExchange closeOk) (samplePeer openOk) 1 0xAA 3 0 16
        500).err = none) ∧
    (opens (RequestBlobsByList (sampleEnv okExchange closeOk) (samplePeer openOk) 1 0xAA 3
        [4, 2] 500).trace
      = [(Ctx.withTimeout (.withCancel .background) 10, samplePeerId,
          (sampleEnv okExchange closeOk).GetProtocolID
            (sampleEnv okExchange closeOk).RequestBlobsByListProtocolID 3333)] ∧
      exchanges (RequestBlobsByList (sampleEnv okExchange closeOk) (samplePeer openOk) 1 0xAA
          3 [4, 2] 500).trace
        = [(some 7, Request.byList 1 0xAA 3 [4, 2]
            (getRequestSize (sampleEnv okExchange closeOk) (samplePeer openOk)),
            RespBuf.byList 500)] ∧
      (RequestBlobsByList (sampleEnv okExchange closeOk) (samplePeer openOk) 1 0xAA 3 [4, 2]
        500).status = 0 ∧
      (RequestBlobsByList (sampleEnv okExchange closeOk) (samplePeer openOk) 1 0xAA 3 [4, 2]
        500).err = none) := by
  rw [range_of_ok (sampleEnv okExchange closeOk) (samplePeer openOk) 1 0xAA 3 0 16 500
      (some 7) rfl,
    list_of_ok (sampleEnv okExchange closeOk) (samplePeer openOk) 1 0xAA 3 [4, 2] 500
      (some 7) rfl]
  refine ⟨⟨?_, ?_, rfl, rfl⟩, ⟨?_, ?_, rfl, rfl⟩⟩
  · simp [opens, opens_deferredClose, callCtx, samplePeer, sampleEnv, specEnv]
  · simp [exchanges, exchanges_deferredClose]
  · simp [opens, opens_deferredClose, callCtx, samplePeer, sampleEnv, specEnv]
  · simp [exchanges, exchanges_deferredClose]

/-- C8, amended: the scope of a call is `context.WithTimeout` of the peer's
lifetime scope bounded by `NewStreamTimeout`, and the stream opening is what
runs under it: the opener is called once, with that scope.  An error of the
opener is returned as `(streamError, err)`.  Once the stream has opened, the
exchange is given no scope, and the call returns the pair of `SendRPC` on a
packet that does not depend on the lifetime scope, whatever that scope is. -/
theorem scope_bounds_only_the_opening {τ : Type} (env : Env τ) (p : Peer τ)
    (id contract shardId origin limit : Nat) (kvList : List Nat) (blobs : Nat) :
    (opens (RequestBlobsByRange env p id contract shardId origin limit blobs).trace
        = [(Ctx.withTimeout p.resCtx env.NewStreamTimeout, p.id,
            env.GetProtocolID env.RequestBlobsByRangeProtocolID p.chainId)] ∧
      (∀ s e, rangeOpen env p = (s, some e) →
        ((RequestBlobsByRange env p id contract shardId origin limit blobs).status,
          (RequestBlobsByRange env p id contract shardId origin limit blobs).err)
          = (env.streamError, some e)) ∧
      (∀ (c : Ctx) s, rangeOpen env { p with resCtx := c } = (s, none) →
        ((RequestBlobsByRange env { p with resCtx := c } id contract shardId origin limit
            blobs).status,
          (RequestBlobsByRange env { p with resCtx := c } id contract shardId origin limit
            blobs).err)
          = env.SendRPC s (.byRange id contract shardId origin limit (getRequestSize env p))
              (.byRange blobs))) ∧
    (opens (RequestBlobsByList env p id contract shardId kvList blobs).trace
        = [(Ctx.withTimeout p.resCtx env.NewStreamTimeout, p.id,
            env.GetProtocolID env.RequestBlobsByListProtocolID p.chainId)] ∧
      (∀ s e, listOpen env p = (s, some e) →
        ((RequestBlobsByList env p id contract shardId kvList blobs).status,
          (RequestBlobsByList env p id contract shardId kvList blobs).err)
          = (env.streamError, some e)) ∧
      (∀ (c : Ctx) s, listOpen env { p with resCtx := c } = (s, none) →
        ((RequestBlobsByList env { p with resCtx := c } id contract shardId kvList
            blobs).status,
          (RequestBlobsByList env { p with resCtx := c } id contract shardId kvList
            blobs).err)
          = env.SendRPC s (.byList id contract shardId kvList (getRequestSize env p))
              (.byList blobs))) := by
  refine ⟨⟨?_, ?_, ?_⟩, ⟨?_, ?_, ?_⟩⟩
  · rcases open_cases (rangeOpen env p) with ⟨s, e, h⟩ | ⟨s, h⟩
    · rw [range_of_fail env p id contract shardId origin limit blobs s e h]
      simp [opens, callCtx]
    · rw [range_of_ok env p id contract shardId origin limit blobs s h]
      simp [opens, opens_deferredClose, callCtx]
  · intro s e h
    rw [range_of_fail env p id contract shardId origin limit blobs s e h]
  · intro c s h
    rw [range_of_ok env { p with resCtx := c } id contract shardId origin limit blobs s h]
    rfl
  · rcases open_cases (listOpen env p) with ⟨s, e, h⟩ | ⟨s, h⟩
    · rw [list_of_fail env p id contract shardId kvList blobs s e h]
      simp [opens, callCtx]
    · rw [list_of_ok env p id contract shardId kvList blobs s h]
      simp [opens, opens_deferredClose, callCtx]
  · intro s e h
    rw [list_of_fail env p id contract shardId kvList blobs s e h]
  · intro c s h
    rw [list_of_ok env { p with resCtx := c } id contract shardId kvList blobs s h]
    rfl

/-- C8 amended, at the sample peer with its lifetime scope replaced by another
scope: a timed-out list fetch returns the exchange's
`(3, "i/o deadline reached")`, and a failed opening returns
`(1, "dial backoff")`. -/
theorem scope_bounds_only_the_opening_witness :
    ((RequestBlobsByList (sampleEnv timeoutExchange closeOk)
        { samplePeer openOk with resCtx := .withCancel (.withCancel .background) } 1 0xAA 3
        [4, 2] 500).status,
      (RequestBlobsByList (sampleEnv timeoutExchange closeOk)
        { samplePeer openOk with resCtx := .withCancel (.withCancel .background) } 1 0xAA 3
        [4, 2] 500).err) = (3, some "i/o deadline reached") ∧
    ((RequestBlobsByRange (sampleEnv timeoutExchange closeOk) (samplePeer openFail) 1 0xAA 3 0
        16 500).status,
      (RequestBlobsByRange (sampleEnv timeoutExchange closeOk) (samplePeer openFail) 1 0xAA 3 0
        16 500).err) = (1, some "dial backoff") :=
  ⟨(scope_bounds_only_the_opening (sampleEnv timeoutExchange closeOk) (samplePeer openOk)
      1 0xAA 3 0 16 [4, 2] 500).2.2.2 (.withCancel (.withCancel .background)) (some 7) rfl,
    (scope_bounds_only_the_opening (sampleEnv timeoutExchange closeOk) (samplePeer openFail)
      1 0xAA 3 0 16 [4, 2] 500).1.2.1 none "dial backoff" rfl⟩

end EsNode
